import Mathlib

/-!
Shallow embedding of the recipe-platform backend (src/main.py): the rows of
the recipes table, the Pydantic request models with their validators, and the
endpoint logic of the CRUD routes, modelled as pure functions over an explicit
store value. Timestamps are abstract instants (Nat); each operation receives
the current instant as a parameter standing for datetime.utcnow().
-/

/-- Whitespace stripped by Python str.strip (the ASCII part: space, tab,
newline, carriage return, vertical tab, form feed). -/
def pyIsSpace (c : Char) : Bool :=
  c == ' ' || c == '\t' || c == '\n' || c == '\r' || c == Char.ofNat 11 || c == Char.ofNat 12

/-- Python str.strip: remove leading and trailing whitespace. -/
def pyStrip (s : String) : String :=
  ⟨((s.data.dropWhile pyIsSpace).reverse.dropWhile pyIsSpace).reverse⟩

/-- ASCII lower-casing, the case folding SQLite applies in its default LIKE
comparison (only the letters A-Z fold). -/
def lowerChar (c : Char) : Char :=
  if 'A' ≤ c && c ≤ 'Z' then Char.ofNat (c.toNat + 32) else c

/-- Match the query against the front of the text the way SQLite LIKE matches
the inner part of the pattern: letters compare ASCII-case-insensitively and
the underscore wildcard matches any single character. -/
def likeStarts : List Char → List Char → Bool
  | [], _ => true
  | _ :: _, [] => false
  | p :: ps, c :: cs => (p == '_' || lowerChar p == lowerChar c) && likeStarts ps cs

/-- Containment at some position of the text. -/
def likeAux (q : List Char) : List Char → Bool
  | [] => q.isEmpty
  | c :: cs => likeStarts q (c :: cs) || likeAux q cs

/-- Model of SQLAlchemy column.contains(q), which issues the SQL pattern
match of the column against percent-q-percent. Under the default backend
(DATABASE_URL falls back to sqlite:///./recipes.db) SQLite evaluates LIKE
ASCII-case-insensitively, so this is case-insensitive containment with the
underscore wildcard. A percent sign inside the query, which SQLite would
treat as a nested wildcard, is modelled literally. -/
def likeContains (q s : String) : Bool :=
  likeAux q.data s.data

/-- A row of the recipes table (src/main.py, class Recipe). The is_deleted
column is a string defaulting to "false", exactly as declared in the source
(Column String with default "false"). -/
structure RecipeRecord where
  id : Nat
  name : String
  description : Option String
  ingredients : String
  instructions : String
  prep_time : Option Int
  cook_time : Option Int
  servings : Option Int
  difficulty : Option String
  category : Option String
  tags : Option String
  image_url : Option String
  created_at : Nat
  updated_at : Nat
  is_deleted : String
deriving DecidableEq

/-- The persistent state: the rows in insertion order together with the next
primary key SQLite will assign. -/
structure Store where
  recipes : List RecipeRecord
  nextId : Nat
deriving DecidableEq

/-- The RecipeBase / RecipeCreate Pydantic model (src/main.py lines 57-95). -/
structure RecipeCreateInput where
  name : String
  description : Option String := none
  ingredients : String
  instructions : String
  prep_time : Option Int := none
  cook_time : Option Int := none
  servings : Option Int := none
  difficulty : Option String := none
  category : Option String := none
  tags : Option String := none
  image_url : Option String := none
deriving DecidableEq

/-- The validation failures the RecipeBase validators can raise, tagged by the
field they belong to. -/
inductive FieldError where
  | nameTooShort
  | ingredientsTooShort
  | instructionsTooShort
  | prepTimeNotPositive
  | cookTimeNotPositive
  | servingsNotPositive
deriving DecidableEq

/-- The field each validation error identifies. -/
def FieldError.field : FieldError → String
  | .nameTooShort => "name"
  | .ingredientsTooShort => "ingredients"
  | .instructionsTooShort => "instructions"
  | .prepTimeNotPositive => "prep_time"
  | .cookTimeNotPositive => "cook_time"
  | .servingsNotPositive => "servings"

/-- A text field fails its validator when its stripped length is below the
minimum; the source guard "not v" is subsumed because the empty string strips
to length zero. -/
def badLen (minLen : Nat) (s : String) : Bool :=
  decide ((pyStrip s).length < minLen)

/-- A numeric field fails its validator when present and not positive. -/
def badPos : Option Int → Bool
  | none => false
  | some v => decide (v ≤ 0)

/-- The errors Pydantic collects for a RecipeBase payload, in field
declaration order (name, ingredients, instructions, prep_time, cook_time,
servings), modelling the validators at src/main.py lines 70-92. -/
def validationErrors (i : RecipeCreateInput) : List FieldError :=
  (if badLen 3 i.name then [.nameTooShort] else []) ++
  (if badLen 10 i.ingredients then [.ingredientsTooShort] else []) ++
  (if badLen 20 i.instructions then [.instructionsTooShort] else []) ++
  (if badPos i.prep_time then [.prepTimeNotPositive] else []) ++
  (if badPos i.cook_time then [.cookTimeNotPositive] else []) ++
  (if badPos i.servings then [.servingsNotPositive] else [])

/-- The transformed payload the validators return on success: the three text
fields are stripped (each validator returns v.strip()). -/
def applyValidators (i : RecipeCreateInput) : RecipeCreateInput :=
  { i with
    name := pyStrip i.name
    ingredients := pyStrip i.ingredients
    instructions := pyStrip i.instructions }

/-- get_recipe_by_id (src/main.py lines 151-152): the first row with the
given id whose is_deleted column is the string "false". -/
def get_recipe_by_id (db : Store) (recipe_id : Nat) : Option RecipeRecord :=
  (db.recipes.filter (fun r => r.id == recipe_id && r.is_deleted == "false")).head?

/-- The non-deleted rows in table order; get_recipes filters on this. -/
def activeRecipes (db : Store) : List RecipeRecord :=
  db.recipes.filter (fun r => r.is_deleted == "false")

/-- get_recipes (src/main.py lines 154-155): non-deleted rows in table
(insertion) order, OFFSET skip LIMIT limit. -/
def get_recipes (db : Store) (skip : Nat) (limit : Nat) : List RecipeRecord :=
  ((db.recipes.filter (fun r => r.is_deleted == "false")).drop skip).take limit

/-- search_recipes_by_name (src/main.py lines 157-161). -/
def search_recipes_by_name (db : Store) (name : String) : List RecipeRecord :=
  db.recipes.filter (fun r => likeContains name r.name && r.is_deleted == "false")

/-- search_recipes_by_ingredient (src/main.py lines 163-167). -/
def search_recipes_by_ingredient (db : Store) (ingredient : String) : List RecipeRecord :=
  db.recipes.filter (fun r => likeContains ingredient r.ingredients && r.is_deleted == "false")

/-- search_recipes_by_category (src/main.py lines 169-173); a NULL category
never matches (SQL NULL LIKE anything is not true). -/
def search_recipes_by_category (db : Store) (category : String) : List RecipeRecord :=
  db.recipes.filter (fun r =>
    (Option.rec false (fun c => likeContains category c) r.category : Bool) &&
    r.is_deleted == "false")

/-- create_recipe (src/main.py lines 212-225) together with the request-body
validation FastAPI performs for RecipeCreate before the endpoint runs: on a
validation failure nothing is stored and the errors are reported; on success
a row is inserted with the next id, created_at = updated_at = now and
is_deleted = "false". -/
def create_recipe (db : Store) (recipe : RecipeCreateInput) (now : Nat) :
    Except (List FieldError) RecipeRecord × Store :=
  match validationErrors recipe with
  | [] =>
    let v := applyValidators recipe
    let r : RecipeRecord :=
      { id := db.nextId
        name := v.name
        description := v.description
        ingredients := v.ingredients
        instructions := v.instructions
        prep_time := v.prep_time
        cook_time := v.cook_time
        servings := v.servings
        difficulty := v.difficulty
        category := v.category
        tags := v.tags
        image_url := v.image_url
        created_at := now
        updated_at := now
        is_deleted := "false" }
    (.ok r, { recipes := db.recipes ++ [r], nextId := db.nextId + 1 })
  | es => (.error es, db)

/-- Commit of a mutated ORM row: the row with the same primary key is
replaced, every other row is untouched. -/
def setRecord (db : Store) (r : RecipeRecord) : Store :=
  { db with recipes := db.recipes.map (fun x => if x.id == r.id then r else x) }

/-- update_recipe, the PUT route (src/main.py lines 227-250): the body is
validated as RecipeBase before the endpoint runs; then the target must be
visible to get_recipe_by_id; every RecipeBase field is overwritten with the
(stripped) body value and updated_at is refreshed. The value ok none stands
for the 404 response. -/
def update_recipe (db : Store) (recipe_id : Nat) (recipe_update : RecipeCreateInput)
    (now : Nat) : Except (List FieldError) (Option (RecipeRecord × Store)) :=
  match validationErrors recipe_update with
  | e :: es => .error (e :: es)
  | [] =>
    match get_recipe_by_id db recipe_id with
    | none => .ok none
    | some r =>
      let v := applyValidators recipe_update
      let r2 : RecipeRecord :=
        { r with
          name := v.name
          description := v.description
          ingredients := v.ingredients
          instructions := v.instructions
          prep_time := v.prep_time
          cook_time := v.cook_time
          servings := v.servings
          difficulty := v.difficulty
          category := v.category
          tags := v.tags
          image_url := v.image_url
          updated_at := now }
      .ok (some (r2, setRecord db r2))

/-- The RecipeUpdate Pydantic model (src/main.py lines 97-108). Every field
is optional and none of them carries a validator. In the embedding, the outer
none means the field was absent from the request body (Pydantic dict with
exclude_unset drops it); for a nullable column a present value is itself an
Option. Explicitly sending null for one of the three non-nullable columns
would abort at commit time and is outside this model. -/
structure RecipeUpdateInput where
  name : Option String := none
  description : Option (Option String) := none
  ingredients : Option String := none
  instructions : Option String := none
  prep_time : Option (Option Int) := none
  cook_time : Option (Option Int) := none
  servings : Option (Option Int) := none
  difficulty : Option (Option String) := none
  category : Option (Option String) := none
  tags : Option (Option String) := none
  image_url : Option (Option String) := none
deriving DecidableEq

/-- patch_recipe (src/main.py lines 252-276): the target must be visible to
get_recipe_by_id; exactly the fields present in the body are overwritten (the
loop runs over dict(exclude_unset=True)); updated_at is refreshed. No
validation is applied anywhere on this path: RecipeUpdate declares no
validators. -/
def patch_recipe (db : Store) (recipe_id : Nat) (recipe_update : RecipeUpdateInput)
    (now : Nat) : Option (RecipeRecord × Store) :=
  match get_recipe_by_id db recipe_id with
  | none => none
  | some r =>
    let r2 : RecipeRecord :=
      { r with
        name := recipe_update.name.getD r.name
        description := recipe_update.description.getD r.description
        ingredients := recipe_update.ingredients.getD r.ingredients
        instructions := recipe_update.instructions.getD r.instructions
        prep_time := recipe_update.prep_time.getD r.prep_time
        cook_time := recipe_update.cook_time.getD r.cook_time
        servings := recipe_update.servings.getD r.servings
        difficulty := recipe_update.difficulty.getD r.difficulty
        category := recipe_update.category.getD r.category
        tags := recipe_update.tags.getD r.tags
        image_url := recipe_update.image_url.getD r.image_url
        updated_at := now }
    some (r2, setRecord db r2)

/-- delete_recipe (src/main.py lines 278-295): soft delete; the target must
be visible to get_recipe_by_id; sets is_deleted to "true" and refreshes
updated_at. -/
def delete_recipe (db : Store) (recipe_id : Nat) (now : Nat) : Option Store :=
  match get_recipe_by_id db recipe_id with
  | none => none
  | some r => some (setRecord db { r with is_deleted := "true", updated_at := now })

/-- Modelled from the spec: the restore endpoint is exercised by
test_restore_recipe (src/test_api.py lines 195-208) but has no route in
src/main.py. Per the spec it requires the target to exist with deleted =
true, sets deleted = false and refreshes updated_at; restoring a non-deleted
or nonexistent record is NotFound. -/
def restore_recipe (db : Store) (recipe_id : Nat) (now : Nat) :
    Option (RecipeRecord × Store) :=
  match (db.recipes.filter (fun r => r.id == recipe_id && r.is_deleted == "true")).head? with
  | none => none
  | some r =>
    let r2 : RecipeRecord := { r with is_deleted := "false", updated_at := now }
    some (r2, setRecord db r2)

/-- The distinct values of a list keeping first occurrences (SQL DISTINCT);
the second argument accumulates the values already seen. -/
def distinctAux {α : Type} [DecidableEq α] : List α → List α → List α
  | [], _ => []
  | b :: t, seen => if b ∈ seen then distinctAux t seen else b :: distinctAux t (b :: seen)

/-- SQL DISTINCT over a list of values. -/
def distinctVals {α : Type} [DecidableEq α] (l : List α) : List α :=
  distinctAux l []

/-- The payload of the stats endpoint. -/
structure StatsOut where
  total_recipes : Nat
  total_deleted : Nat
  categories : List (String × Nat)
deriving DecidableEq

/-- get_stats (src/main.py lines 361-387): counts of non-deleted and deleted
rows, and for each distinct category among the non-deleted rows that is
truthy in Python (the source guard skips both NULL and the empty string),
the count of non-deleted rows with exactly that category string. -/
def get_stats (db : Store) : StatsOut :=
  let act := db.recipes.filter (fun r => r.is_deleted == "false")
  { total_recipes := act.length
    total_deleted := (db.recipes.filter (fun r => r.is_deleted == "true")).length
    categories :=
      (distinctVals (act.map (fun r => r.category))).filterMap (fun c =>
        match c with
        | none => none
        | some s =>
          if s == "" then none
          else some (s, (act.filter (fun r => r.category == some s)).length)) }

/-- Well-formedness every reachable store satisfies: primary keys strictly
increase in insertion order and stay below the next key to be assigned. -/
def StoreWF (db : Store) : Prop :=
  db.recipes.Pairwise (fun a b => a.id < b.id) ∧ ∀ r ∈ db.recipes, r.id < db.nextId

/-- Membership in the id-and-deletion filter unfolds to the three conjuncts. -/
theorem mem_filter_id_del (db : Store) (rid : Nat) (d : String) (r : RecipeRecord) :
    r ∈ db.recipes.filter (fun x => x.id == rid && x.is_deleted == d) ↔
      r ∈ db.recipes ∧ r.id = rid ∧ r.is_deleted = d := by
  simp [List.mem_filter]

/-- A list of rows with strictly increasing ids in which every row bears the
same id is the singleton of any of its members. -/
theorem pairwise_id_singleton {rid : Nat} :
    ∀ (l : List RecipeRecord), l.Pairwise (fun a b => a.id < b.id) →
      (∀ x ∈ l, x.id = rid) → ∀ r ∈ l, l = [r]
  | [], _, _, r, hr => absurd hr (List.not_mem_nil r)
  | [a], _, _, r, hr => by
    simp only [List.mem_singleton] at hr
    rw [hr]
  | a :: b :: t, hp, hall, r, hr => by
    exfalso
    have h1 : a.id < b.id := (List.pairwise_cons.mp hp).1 b (by simp)
    have h2 := hall a (by simp)
    have h3 := hall b (by simp)
    omega

/-- Strictly increasing ids make the id a key: two members with the same id
are the same row. -/
theorem pairwise_id_unique :
    ∀ {l : List RecipeRecord}, l.Pairwise (fun a b => a.id < b.id) →
      ∀ r ∈ l, ∀ x ∈ l, r.id = x.id → r = x := by
  intro l hp r hr x hx hid
  induction l with
  | nil => exact absurd hr (List.not_mem_nil r)
  | cons a t ih =>
    rcases List.pairwise_cons.mp hp with ⟨ha, ht⟩
    rcases List.mem_cons.mp hr with hr1 | hr2 <;> rcases List.mem_cons.mp hx with hx1 | hx2
    · rw [hr1, hx1]
    · exfalso; rw [hr1] at hid; have := ha x hx2; omega
    · exfalso; rw [hx1] at hid; have := ha r hr2; omega
    · exact ih ht hr2 hx2

/-- In a well-formed table the first row matching an id-and-deletion filter
is characterised by membership. -/
theorem filter_id_head_some (db : Store) (rid : Nat) (d : String) (hwf : StoreWF db)
    (r : RecipeRecord) :
    (db.recipes.filter (fun x => x.id == rid && x.is_deleted == d)).head? = some r ↔
      r ∈ db.recipes ∧ r.id = rid ∧ r.is_deleted = d := by
  constructor
  · intro h
    have hmem : r ∈ db.recipes.filter (fun x => x.id == rid && x.is_deleted == d) := by
      cases hfl : db.recipes.filter (fun x => x.id == rid && x.is_deleted == d) with
      | nil => rw [hfl] at h; simp at h
      | cons a t =>
        rw [hfl] at h
        simp only [List.head?_cons, Option.some.injEq] at h
        rw [← h]
        exact List.mem_cons_self a t
    exact (mem_filter_id_del db rid d r).mp hmem
  · rintro ⟨h1, h2, h3⟩
    have hmem := (mem_filter_id_del db rid d r).mpr ⟨h1, h2, h3⟩
    have hp : (db.recipes.filter (fun x => x.id == rid && x.is_deleted == d)).Pairwise
        (fun a b => a.id < b.id) :=
      hwf.1.sublist (List.filter_sublist db.recipes)
    have hall : ∀ x ∈ db.recipes.filter (fun x => x.id == rid && x.is_deleted == d),
        x.id = rid :=
      fun x hx => ((mem_filter_id_del db rid d x).mp hx).2.1
    rw [pairwise_id_singleton _ hp hall r hmem]
    rfl

/-- When no row both matches the id and has the given deletion mark, the
filter finds nothing. -/
theorem filter_id_head_none (db : Store) (rid : Nat) (d : String)
    (h : ∀ x ∈ db.recipes, x.id = rid → x.is_deleted ≠ d) :
    (db.recipes.filter (fun x => x.id == rid && x.is_deleted == d)).head? = none := by
  have hfl : db.recipes.filter (fun x => x.id == rid && x.is_deleted == d) = [] := by
    rw [List.filter_eq_nil_iff]
    intro x hx
    simp only [Bool.and_eq_true, beq_iff_eq, not_and]
    exact h x hx
  rw [hfl]
  rfl

/-- get_recipe_by_id returns a row exactly when that row is stored with the
requested id and is not deleted. -/
theorem get_by_id_some_iff (db : Store) (rid : Nat) (hwf : StoreWF db)
    (r : RecipeRecord) :
    get_recipe_by_id db rid = some r ↔
      r ∈ db.recipes ∧ r.id = rid ∧ r.is_deleted = "false" :=
  filter_id_head_some db rid "false" hwf r

/-- get_recipe_by_id reports NotFound when every row with the requested id is
deleted, in particular when there is no such row at all. -/
theorem get_by_id_none (db : Store) (rid : Nat)
    (h : ∀ x ∈ db.recipes, x.id = rid → x.is_deleted ≠ "false") :
    get_recipe_by_id db rid = none :=
  filter_id_head_none db rid "false" h

/-- Replacing a row by one with the same primary key leaves every id where it
was. -/
theorem replace_keeps_id (r2 x : RecipeRecord) :
    (if x.id == r2.id then r2 else x).id = x.id := by
  by_cases h : x.id = r2.id <;> simp [h]

/-- Committing a row mutation preserves store well-formedness: ids stay in
place because the written row keeps the primary key of the row it replaces. -/
theorem setRecord_wf (db : Store) (r2 : RecipeRecord) (hwf : StoreWF db) :
    StoreWF (setRecord db r2) := by
  constructor
  · rw [setRecord, List.pairwise_map]
    refine hwf.1.imp ?_
    intro a b hab
    rw [replace_keeps_id r2 a, replace_keeps_id r2 b]
    exact hab
  · intro r hr
    simp only [setRecord, List.mem_map] at hr
    obtain ⟨y, hy, rfl⟩ := hr
    rw [replace_keeps_id r2 y]
    exact hwf.2 y hy

/-- Creation preserves store well-formedness: the new row receives the next
id, which is strictly above every existing id. -/
theorem create_recipe_wf (db : Store) (i : RecipeCreateInput) (now : Nat)
    (hwf : StoreWF db) : StoreWF (create_recipe db i now).2 := by
  cases hv : validationErrors i with
  | nil =>
    simp only [create_recipe, hv]
    constructor
    · rw [List.pairwise_append]
      refine ⟨hwf.1, List.pairwise_singleton _ _, ?_⟩
      intro a ha b hb
      simp only [List.mem_singleton] at hb
      rw [hb]
      exact hwf.2 a ha
    · intro r hr
      rcases List.mem_append.mp hr with h | h
      · have := hwf.2 r h
        show r.id < db.nextId + 1
        omega
      · simp only [List.mem_singleton] at h
        rw [h]
        simp
  | cons e es =>
    simp only [create_recipe, hv]
    exact hwf

/-- Soft deletion preserves store well-formedness. -/
theorem delete_recipe_wf (db db2 : Store) (rid now : Nat) (hwf : StoreWF db)
    (h : delete_recipe db rid now = some db2) : StoreWF db2 := by
  unfold delete_recipe at h
  cases hg : get_recipe_by_id db rid with
  | none => rw [hg] at h; exact absurd h (by simp)
  | some r =>
    rw [hg] at h
    simp only [Option.some.injEq] at h
    have hr := (get_by_id_some_iff db rid hwf r).mp hg
    rw [← h]
    exact setRecord_wf db _ hwf

/-- Membership in the distinct-values accumulator. -/
theorem mem_distinctAux {α : Type} [DecidableEq α] (a : α) :
    ∀ (l seen : List α), a ∈ distinctAux l seen ↔ a ∈ l ∧ a ∉ seen := by
  intro l
  induction l with
  | nil => intro seen; simp [distinctAux]
  | cons b t ih =>
    intro seen
    simp only [distinctAux]
    by_cases hb : b ∈ seen
    · rw [if_pos hb, ih]
      constructor
      · rintro ⟨h1, h2⟩
        exact ⟨List.mem_cons_of_mem b h1, h2⟩
      · rintro ⟨h1, h2⟩
        rcases List.mem_cons.mp h1 with rfl | h1
        · exact absurd hb h2
        · exact ⟨h1, h2⟩
    · rw [if_neg hb]
      by_cases hab : a = b
      · subst hab
        simp [hb]
      · simp only [List.mem_cons, ih, hab, false_or]

/-- Membership in SQL DISTINCT output is membership in the input. -/
theorem mem_distinctVals {α : Type} [DecidableEq α] (a : α) (l : List α) :
    a ∈ distinctVals l ↔ a ∈ l := by
  rw [distinctVals, mem_distinctAux]
  simp

/-- A numeric field passes its validator exactly when any present value is
positive. -/
theorem badPos_false_iff (o : Option Int) :
    badPos o = false ↔ ∀ v, o = some v → 0 < v := by
  cases o with
  | none => simp [badPos]
  | some v =>
    simp only [badPos, decide_eq_false_iff_not, Int.not_le, Option.some.injEq]
    constructor
    · intro h w hw
      rw [← hw]
      exact h
    · intro h
      exact h v rfl

/-- The concatenation of the pages of size L at offsets 0, L, 2L, and so on. -/
def pagesOf (db : Store) (L n : Nat) : List RecipeRecord :=
  ((List.range n).map (fun i => get_recipes db (i * L) L)).flatten

/-- Concatenating the first n pages of size L of a list yields its first
n * L elements. -/
theorem flatten_pages_take (l : List RecipeRecord) (L : Nat) :
    ∀ n, ((List.range n).map (fun i => (l.drop (i * L)).take L)).flatten = l.take (n * L)
  | 0 => by simp
  | n + 1 => by
    rw [List.range_succ, List.map_append, List.flatten_append, flatten_pages_take l L n]
    simp only [List.map_cons, List.map_nil, List.flatten_cons, List.flatten_nil,
      List.append_nil]
    rw [Nat.succ_mul, List.take_add]

/-- Enough pages reassemble exactly the non-deleted rows. -/
theorem pagesOf_eq_active (db : Store) (L n : Nat)
    (h : (activeRecipes db).length ≤ n * L) : pagesOf db L n = activeRecipes db := by
  have heq : pagesOf db L n = (activeRecipes db).take (n * L) :=
    flatten_pages_take (activeRecipes db) L n
  rw [heq]
  exact List.take_of_length_le h

/-- The sample record of the test suite (src/test_api.py, sample_recipe),
stored as row 1. -/
def sampleRecipe : RecipeRecord :=
  { id := 1
    name := "Pasta Carbonara"
    description := some "Deliciosa pasta italiana"
    ingredients := "400g pasta, 200g panceta, 4 huevos"
    instructions := "Hervir la pasta, freir la panceta, mezclar todo bien"
    prep_time := some 15
    cook_time := some 20
    servings := some 4
    difficulty := some "medio"
    category := some "almuerzo"
    tags := some "italiana"
    image_url := none
    created_at := 0
    updated_at := 0
    is_deleted := "false" }

/-- A store holding just the sample record. -/
def sampleDb : Store := { recipes := [sampleRecipe], nextId := 2 }

theorem sampleDb_wf : StoreWF sampleDb := by
  constructor
  · simp [sampleDb]
  · intro r hr
    simp only [sampleDb, List.mem_singleton] at hr
    rw [hr]
    decide

/-- The sample record after the soft delete at instant 3. -/
def deletedSample : RecipeRecord := { sampleRecipe with is_deleted := "true", updated_at := 3 }

/-- The store after soft-deleting the sample record at instant 3. -/
def deletedDb : Store := { recipes := [deletedSample], nextId := 2 }

theorem deletedDb_wf : StoreWF deletedDb := by
  constructor
  · simp [deletedDb]
  · intro r hr
    simp only [deletedDb, List.mem_singleton] at hr
    rw [hr]
    decide

/-- The store before any record is created. -/
def emptyStore : Store := { recipes := [], nextId := 1 }

theorem emptyStore_wf : StoreWF emptyStore := by
  constructor
  · simp [emptyStore]
  · intro r hr
    simp [emptyStore] at hr

/-- After a soft delete is committed, no row with the deleted id is visible
to get_recipe_by_id. -/
theorem get_none_after_delete (db : Store) (r : RecipeRecord) (rid now : Nat)
    (hid : r.id = rid) :
    get_recipe_by_id (setRecord db { r with is_deleted := "true", updated_at := now }) rid =
      none := by
  apply get_by_id_none
  intro x hx hxid
  simp only [setRecord, List.mem_map] at hx
  obtain ⟨y, hy, hxy⟩ := hx
  by_cases hy2 : (y.id == ({ r with is_deleted := "true", updated_at := now } :
      RecipeRecord).id) = true
  · rw [if_pos hy2] at hxy
    rw [← hxy]
    show ("true" : String) ≠ "false"
    decide
  · rw [if_neg hy2] at hxy
    rw [← hxy] at hxid
    refine absurd (beq_iff_eq.mpr ?_) hy2
    show y.id = r.id
    rw [hxid, ← hid]

/-- C2: counterexample to case-sensitive search. The claim predicts that
searching the name "carbonara" misses the record named "Pasta Carbonara";
under the default SQLite backend the LIKE-based containment of the source is
ASCII-case-insensitive, so both spellings return the record. -/
theorem c2_search_case_counterexample :
    search_recipes_by_name sampleDb "carbonara" = [sampleRecipe] ∧
    search_recipes_by_name sampleDb "Carbonara" = [sampleRecipe] := by
  constructor <;> decide

/-- C2 amended: each search returns exactly the non-deleted records whose
selected field contains the query in the SQLite LIKE sense (ASCII-case-
insensitive containment); a record with a NULL category never matches a
category search. -/
theorem c2_search_semantics (db : Store) (q : String) (r : RecipeRecord) :
    (r ∈ search_recipes_by_name db q ↔
      r ∈ db.recipes ∧ likeContains q r.name = true ∧ r.is_deleted = "false") ∧
    (r ∈ search_recipes_by_ingredient db q ↔
      r ∈ db.recipes ∧ likeContains q r.ingredients = true ∧ r.is_deleted = "false") ∧
    (r ∈ search_recipes_by_category db q ↔
      r ∈ db.recipes ∧ (∃ c, r.category = some c ∧ likeContains q c = true) ∧
        r.is_deleted = "false") := by
  refine ⟨?_, ?_, ?_⟩
  · simp [search_recipes_by_name, List.mem_filter, and_assoc]
  · simp [search_recipes_by_ingredient, List.mem_filter, and_assoc]
  · simp only [search_recipes_by_category, List.mem_filter, Bool.and_eq_true, beq_iff_eq]
    cases hc : r.category with
    | none => simp [hc]
    | some c =>
      simp only [hc, Option.some.injEq]
      constructor
      · rintro ⟨h1, h2, h3⟩
        exact ⟨h1, ⟨c, rfl, h2⟩, h3⟩
      · rintro ⟨h1, ⟨c2, hcc, h2⟩, h3⟩
        rw [← hcc] at h2
        exact ⟨h1, h2, h3⟩

/-- C4: a record is returned by get exactly when it is stored with the
requested id and not deleted; a deleted id and a nonexistent id both produce
the very same NotFound result; the default listing and all three searches
never return a deleted record. -/
theorem c4_read_visibility (db : Store) (rid skip lim : Nat) (q : String)
    (hwf : StoreWF db) :
    (∀ r, get_recipe_by_id db rid = some r ↔
      r ∈ db.recipes ∧ r.id = rid ∧ r.is_deleted = "false") ∧
    (∀ r ∈ db.recipes, r.id = rid → r.is_deleted = "true" →
      get_recipe_by_id db rid = none) ∧
    ((∀ r ∈ db.recipes, r.id ≠ rid) → get_recipe_by_id db rid = none) ∧
    (∀ r ∈ get_recipes db skip lim, r.is_deleted = "false") ∧
    (∀ r ∈ search_recipes_by_name db q, r.is_deleted = "false") ∧
    (∀ r ∈ search_recipes_by_ingredient db q, r.is_deleted = "false") ∧
    (∀ r ∈ search_recipes_by_category db q, r.is_deleted = "false") := by
  refine ⟨fun r => get_by_id_some_iff db rid hwf r, ?_, ?_, ?_, ?_, ?_, ?_⟩
  · intro r hr hid hdel
    apply get_by_id_none
    intro x hx hxid
    have hxr : x = r := pairwise_id_unique hwf.1 x hx r hr (by rw [hxid, hid])
    rw [hxr, hdel]
    decide
  · intro h
    apply get_by_id_none
    intro x hx hxid
    exact absurd hxid (h x hx)
  · intro r hr
    have h2 : r ∈ db.recipes.filter (fun x => x.is_deleted == "false") :=
      List.drop_subset _ _ (List.take_subset _ _ hr)
    simpa using (List.mem_filter.mp h2).2
  · intro r hr
    have h2 := (List.mem_filter.mp hr).2
    simp only [Bool.and_eq_true, beq_iff_eq] at h2
    exact h2.2
  · intro r hr
    have h2 := (List.mem_filter.mp hr).2
    simp only [Bool.and_eq_true, beq_iff_eq] at h2
    exact h2.2
  · intro r hr
    have h2 := (List.mem_filter.mp hr).2
    simp only [Bool.and_eq_true, beq_iff_eq] at h2
    exact h2.2

/-- C4 witness: at the sample store, get finds the active sample record. -/
theorem c4_read_visibility_witness :
    get_recipe_by_id sampleDb 1 = some sampleRecipe :=
  ((c4_read_visibility sampleDb 1 0 100 "x" sampleDb_wf).1 sampleRecipe).mpr
    ⟨by simp [sampleDb], rfl, rfl⟩

/-- C5: soft delete succeeds on an existing non-deleted record, marking it
deleted and refreshing updated_at, and a second soft delete right after is
NotFound; a nonexistent or already-deleted id is NotFound as well. -/
theorem c5_soft_delete (db : Store) (rid now now2 : Nat) (hwf : StoreWF db) :
    ((∀ r ∈ db.recipes, r.id ≠ rid) → delete_recipe db rid now = none) ∧
    (∀ r ∈ db.recipes, r.id = rid → r.is_deleted = "true" →
      delete_recipe db rid now = none) ∧
    (∀ r ∈ db.recipes, r.id = rid → r.is_deleted = "false" →
      delete_recipe db rid now =
        some (setRecord db { r with is_deleted := "true", updated_at := now }) ∧
      { r with is_deleted := "true", updated_at := now } ∈
        (setRecord db { r with is_deleted := "true", updated_at := now }).recipes ∧
      delete_recipe (setRecord db { r with is_deleted := "true", updated_at := now })
        rid now2 = none) := by
  refine ⟨?_, ?_, ?_⟩
  · intro h
    have hg : get_recipe_by_id db rid = none :=
      get_by_id_none db rid (fun x hx hxid => absurd hxid (h x hx))
    simp [delete_recipe, hg]
  · intro r hr hid hdel
    have hg : get_recipe_by_id db rid = none := by
      apply get_by_id_none
      intro x hx hxid
      have hxr : x = r := pairwise_id_unique hwf.1 x hx r hr (by rw [hxid, hid])
      rw [hxr, hdel]
      decide
    simp [delete_recipe, hg]
  · intro r hr hid hdel
    have hg : get_recipe_by_id db rid = some r :=
      (get_by_id_some_iff db rid hwf r).mpr ⟨hr, hid, hdel⟩
    refine ⟨by simp [delete_recipe, hg], ?_, ?_⟩
    · simp only [setRecord, List.mem_map]
      exact ⟨r, hr, by simp⟩
    · have hgone := get_none_after_delete db r rid now hid
      simp [delete_recipe, hgone]

/-- C5 witness: deleting the sample record succeeds and a second delete is
NotFound. -/
theorem c5_soft_delete_witness :
    delete_recipe sampleDb 1 3 =
      some (setRecord sampleDb { sampleRecipe with is_deleted := "true", updated_at := 3 }) ∧
    delete_recipe
      (setRecord sampleDb { sampleRecipe with is_deleted := "true", updated_at := 3 })
      1 4 = none := by
  have h := (c5_soft_delete sampleDb 1 3 4 sampleDb_wf).2.2 sampleRecipe
    (by simp [sampleDb]) rfl rfl
  exact ⟨h.1, h.2.2⟩

/-- C3: restore — modelled from the spec, since the source has the endpoint
only in its test suite — succeeds exactly on an existing deleted record,
clearing the deleted flag and refreshing updated_at; a non-deleted or
nonexistent id is NotFound; and on a currently-deleted record every other
by-id operation (get, full update with a valid body, partial update, soft
delete) reports NotFound, leaving restore as the one operation able to
target it. -/
theorem c3_restore (db : Store) (rid now : Nat) (u : RecipeUpdateInput)
    (hwf : StoreWF db) :
    ((∀ r ∈ db.recipes, r.id ≠ rid) → restore_recipe db rid now = none) ∧
    (∀ r ∈ db.recipes, r.id = rid → r.is_deleted = "false" →
      restore_recipe db rid now = none) ∧
    (∀ r ∈ db.recipes, r.id = rid → r.is_deleted = "true" →
      restore_recipe db rid now =
        some ({ r with is_deleted := "false", updated_at := now },
          setRecord db { r with is_deleted := "false", updated_at := now }) ∧
      get_recipe_by_id db rid = none ∧
      patch_recipe db rid u now = none ∧
      delete_recipe db rid now = none ∧
      ∀ i : RecipeCreateInput, validationErrors i = [] →
        update_recipe db rid i now = .ok none) := by
  refine ⟨?_, ?_, ?_⟩
  · intro h
    have hg := filter_id_head_none db rid "true" (fun x hx hxid => absurd hxid (h x hx))
    simp [restore_recipe, hg]
  · intro r hr hid hact
    have hg : (db.recipes.filter (fun x => x.id == rid && x.is_deleted == "true")).head? =
        none := by
      apply filter_id_head_none
      intro x hx hxid
      have hxr : x = r := pairwise_id_unique hwf.1 x hx r hr (by rw [hxid, hid])
      rw [hxr, hact]
      decide
    simp [restore_recipe, hg]
  · intro r hr hid hdel
    have hg : (db.recipes.filter (fun x => x.id == rid && x.is_deleted == "true")).head? =
        some r :=
      (filter_id_head_some db rid "true" hwf r).mpr ⟨hr, hid, hdel⟩
    have hnone : get_recipe_by_id db rid = none := by
      apply get_by_id_none
      intro x hx hxid
      have hxr : x = r := pairwise_id_unique hwf.1 x hx r hr (by rw [hxid, hid])
      rw [hxr, hdel]
      decide
    refine ⟨by simp [restore_recipe, hg], hnone, by simp [patch_recipe, hnone],
      by simp [delete_recipe, hnone], ?_⟩
    intro i hv
    simp [update_recipe, hv, hnone]

/-- C3 witness: restoring the soft-deleted sample record succeeds while get
cannot see it. -/
theorem c3_restore_witness :
    restore_recipe deletedDb 1 9 =
      some ({ deletedSample with is_deleted := "false", updated_at := 9 },
        setRecord deletedDb { deletedSample with is_deleted := "false", updated_at := 9 }) ∧
    get_recipe_by_id deletedDb 1 = none := by
  have h := (c3_restore deletedDb 1 9 {} deletedDb_wf).2.2 deletedSample
    (by simp [deletedDb]) rfl rfl
  exact ⟨h.1, h.2.1⟩

/-- The invalid partial update used as counterexample: a name of length 2. -/
def badPatch : RecipeUpdateInput := { name := some "ab" }

/-- C1 counterexample: patching the sample record with the name "ab", which
violates the create-time minimum of 3 characters, is not rejected: the patch
succeeds and stores "ab", because RecipeUpdate carries no validators at all. -/
theorem c1_patch_no_validation_counterexample :
    badLen 3 "ab" = true ∧
    patch_recipe sampleDb 1 badPatch 5 =
      some ({ sampleRecipe with name := "ab", updated_at := 5 },
        { recipes := [{ sampleRecipe with name := "ab", updated_at := 5 }], nextId := 2 }) := by
  constructor <;> decide

/-- C1 amended: partial update requires an existing non-deleted target, then
overwrites exactly the fields present in the body with the supplied values,
keeps every absent field at its current value, refreshes updated_at and
preserves id, created_at and the deletion flag — but performs no validation
on any overwritten field. A nonexistent or deleted id is NotFound. -/
theorem c1_patch_semantics (db : Store) (rid now : Nat) (u : RecipeUpdateInput)
    (hwf : StoreWF db) :
    ((∀ r ∈ db.recipes, r.id ≠ rid) → patch_recipe db rid u now = none) ∧
    (∀ r ∈ db.recipes, r.id = rid → r.is_deleted = "true" →
      patch_recipe db rid u now = none) ∧
    (∀ r ∈ db.recipes, r.id = rid → r.is_deleted = "false" →
      patch_recipe db rid u now =
        some ({ r with
          name := u.name.getD r.name
          description := u.description.getD r.description
          ingredients := u.ingredients.getD r.ingredients
          instructions := u.instructions.getD r.instructions
          prep_time := u.prep_time.getD r.prep_time
          cook_time := u.cook_time.getD r.cook_time
          servings := u.servings.getD r.servings
          difficulty := u.difficulty.getD r.difficulty
          category := u.category.getD r.category
          tags := u.tags.getD r.tags
          image_url := u.image_url.getD r.image_url
          updated_at := now },
          setRecord db { r with
            name := u.name.getD r.name
            description := u.description.getD r.description
            ingredients := u.ingredients.getD r.ingredients
            instructions := u.instructions.getD r.instructions
            prep_time := u.prep_time.getD r.prep_time
            cook_time := u.cook_time.getD r.cook_time
            servings := u.servings.getD r.servings
            difficulty := u.difficulty.getD r.difficulty
            category := u.category.getD r.category
            tags := u.tags.getD r.tags
            image_url := u.image_url.getD r.image_url
            updated_at := now })) := by
  refine ⟨?_, ?_, ?_⟩
  · intro h
    have hg := get_by_id_none db rid (fun x hx hxid => absurd hxid (h x hx))
    simp [patch_recipe, hg]
  · intro r hr hid hdel
    have hg : get_recipe_by_id db rid = none := by
      apply get_by_id_none
      intro x hx hxid
      have hxr : x = r := pairwise_id_unique hwf.1 x hx r hr (by rw [hxid, hid])
      rw [hxr, hdel]
      decide
    simp [patch_recipe, hg]
  · intro r hr hid hact
    have hg : get_recipe_by_id db rid = some r :=
      (get_by_id_some_iff db rid hwf r).mpr ⟨hr, hid, hact⟩
    simp [patch_recipe, hg]

/-- C1 witness: the amended semantics applied to the counterexample patch. -/
theorem c1_patch_semantics_witness :
    patch_recipe sampleDb 1 badPatch 5 =
      some ({ sampleRecipe with name := "ab", updated_at := 5 },
        setRecord sampleDb { sampleRecipe with name := "ab", updated_at := 5 }) := by
  have h := (c1_patch_semantics sampleDb 1 5 badPatch sampleDb_wf).2.2 sampleRecipe
    (by simp [sampleDb]) rfl rfl
  rw [h]
  decide

/-- The PATCH body containing no fields at all. -/
def emptyUpdate : RecipeUpdateInput := {}

/-- C10: a partial update whose body contains no fields succeeds on an
existing non-deleted record and returns it with every stored field unchanged
except updated_at, which is set to the current instant; every other row is
untouched. -/
theorem c10_empty_patch (db : Store) (rid now : Nat) (hwf : StoreWF db)
    (r : RecipeRecord) (hr : r ∈ db.recipes) (hid : r.id = rid)
    (hact : r.is_deleted = "false") :
    patch_recipe db rid emptyUpdate now =
      some ({ r with updated_at := now }, setRecord db { r with updated_at := now }) ∧
    ∀ x ∈ db.recipes, x.id ≠ rid →
      x ∈ (setRecord db { r with updated_at := now }).recipes := by
  have hg : get_recipe_by_id db rid = some r :=
    (get_by_id_some_iff db rid hwf r).mpr ⟨hr, hid, hact⟩
  constructor
  · simp [patch_recipe, hg, emptyUpdate]
  · intro x hx hxid
    simp only [setRecord, List.mem_map]
    refine ⟨x, hx, ?_⟩
    have hxr : ¬ (x.id == ({ r with updated_at := now } : RecipeRecord).id) = true := by
      simp only [beq_iff_eq]
      show ¬ x.id = r.id
      rw [hid]
      exact hxid
    rw [if_neg hxr]

/-- C10 witness: the empty patch on the sample record refreshes only
updated_at. -/
theorem c10_empty_patch_witness :
    patch_recipe sampleDb 1 emptyUpdate 7 =
      some ({ sampleRecipe with updated_at := 7 },
        setRecord sampleDb { sampleRecipe with updated_at := 7 }) :=
  (c10_empty_patch sampleDb 1 7 sampleDb_wf sampleRecipe (by simp [sampleDb]) rfl rfl).1

/-- C6: listing skips the offset and returns at most limit non-deleted rows
in ascending id order, and for a page size L of at least one, once n pages
cover the count of non-deleted rows, the pages at offsets 0, L, 2L, and so on
concatenate to exactly the non-deleted rows, each exactly once, in ascending
id order. -/
theorem c6_pagination (db : Store) (skip L : Nat) (hwf : StoreWF db)
    (_hL1 : 1 ≤ L) (_hL2 : L ≤ 100) :
    get_recipes db skip L = ((activeRecipes db).drop skip).take L ∧
    (get_recipes db skip L).length ≤ L ∧
    (get_recipes db skip L).Pairwise (fun a b => a.id < b.id) ∧
    (activeRecipes db).Pairwise (fun a b => a.id < b.id) ∧
    ∀ n, (activeRecipes db).length ≤ n * L → pagesOf db L n = activeRecipes db := by
  have hpa : (activeRecipes db).Pairwise (fun a b => a.id < b.id) :=
    hwf.1.sublist (List.filter_sublist db.recipes)
  have hsub : List.Sublist (get_recipes db skip L) (activeRecipes db) :=
    (List.take_sublist _ _).trans (List.drop_sublist _ _)
  exact ⟨rfl, List.length_take_le _ _, hpa.sublist hsub, hpa,
    fun n h => pagesOf_eq_active db L n h⟩

/-- C6 witness: one page of size one reassembles the sample store. -/
theorem c6_pagination_witness :
    pagesOf sampleDb 1 1 = activeRecipes sampleDb :=
  (c6_pagination sampleDb 0 1 sampleDb_wf (by decide) (by decide)).2.2.2.2 1 (by decide)

/-- The row create_recipe inserts for a valid payload: the payload with its
three text fields stripped, the next id, both timestamps set to now, and not
deleted. -/
def createdRecord (db : Store) (i : RecipeCreateInput) (now : Nat) : RecipeRecord :=
  { id := db.nextId
    name := pyStrip i.name
    description := i.description
    ingredients := pyStrip i.ingredients
    instructions := pyStrip i.instructions
    prep_time := i.prep_time
    cook_time := i.cook_time
    servings := i.servings
    difficulty := i.difficulty
    category := i.category
    tags := i.tags
    image_url := i.image_url
    created_at := now
    updated_at := now
    is_deleted := "false" }

/-- A valid payload whose name carries surrounding whitespace. -/
def untrimmedInput : RecipeCreateInput :=
  { name := " Pasta Carbonara "
    ingredients := "400g pasta, 200g panceta, 4 huevos"
    instructions := "Hervir la pasta y mezclar todo bien." }

/-- C7 counterexample: the record returned by get right after create is not
equal to the input on the name field, because the validator stored the
stripped name. -/
theorem c7_trimming_counterexample :
    validationErrors untrimmedInput = [] ∧
    (create_recipe emptyStore untrimmedInput 0).1 =
      .ok (createdRecord emptyStore untrimmedInput 0) ∧
    get_recipe_by_id (create_recipe emptyStore untrimmedInput 0).2 1 =
      some (createdRecord emptyStore untrimmedInput 0) ∧
    (createdRecord emptyStore untrimmedInput 0).name = "Pasta Carbonara" ∧
    (createdRecord emptyStore untrimmedInput 0).name ≠ untrimmedInput.name := by
  refine ⟨by decide, rfl, by decide, by decide, by decide⟩

/-- C7 amended: for every valid payload, create succeeds and an immediate
get on the assigned id returns exactly the inserted row — the payload with
its text fields stripped, the assigned id, created_at = updated_at = now,
and deleted = false. -/
theorem c7_create_then_get (db : Store) (i : RecipeCreateInput) (now : Nat)
    (hwf : StoreWF db) (hv : validationErrors i = []) :
    (create_recipe db i now).1 = .ok (createdRecord db i now) ∧
    (create_recipe db i now).2.recipes = db.recipes ++ [createdRecord db i now] ∧
    (create_recipe db i now).2.nextId = db.nextId + 1 ∧
    get_recipe_by_id (create_recipe db i now).2 db.nextId =
      some (createdRecord db i now) := by
  have hstore : create_recipe db i now =
      (.ok (createdRecord db i now),
        { recipes := db.recipes ++ [createdRecord db i now], nextId := db.nextId + 1 }) := by
    simp [create_recipe, hv, createdRecord, applyValidators]
  have h1 : db.recipes.filter (fun r => r.id == db.nextId && r.is_deleted == "false") =
      [] := by
    rw [List.filter_eq_nil_iff]
    intro x hx
    have hlt := hwf.2 x hx
    simp only [Bool.and_eq_true, beq_iff_eq, not_and]
    intro hxid
    exfalso
    omega
  have h2 : [createdRecord db i now].filter
      (fun r => r.id == db.nextId && r.is_deleted == "false") =
      [createdRecord db i now] := by
    simp [createdRecord]
  have hget : get_recipe_by_id
      ({ recipes := db.recipes ++ [createdRecord db i now], nextId := db.nextId + 1 } :
        Store) db.nextId = some (createdRecord db i now) := by
    simp only [get_recipe_by_id, List.filter_append, h1, h2, List.nil_append,
      List.head?_cons]
  refine ⟨by rw [hstore], by rw [hstore], by rw [hstore], ?_⟩
  rw [hstore]
  exact hget

/-- C7 witness: the amended round trip at the concrete untrimmed payload. -/
theorem c7_create_then_get_witness :
    get_recipe_by_id (create_recipe emptyStore untrimmedInput 0).2 1 =
      some (createdRecord emptyStore untrimmedInput 0) :=
  (c7_create_then_get emptyStore untrimmedInput 0 emptyStore_wf (by decide)).2.2.2

/-- A singleton-or-empty branch is empty exactly when its guard is false. -/
theorem ite_singleton_eq_nil {α : Type} (b : Bool) (x : α) :
    (if b then [x] else []) = [] ↔ b = false := by
  cases b <;> simp

/-- The length guard in failing form. -/
theorem badLen_true_iff (m : Nat) (s : String) :
    badLen m s = true ↔ (pyStrip s).length < m := by
  simp [badLen]

/-- The length guard in passing form. -/
theorem badLen_false_iff (m : Nat) (s : String) :
    badLen m s = false ↔ m ≤ (pyStrip s).length := by
  simp [badLen, Nat.not_lt]

/-- No error is collected exactly when every guard passes. -/
theorem validationErrors_nil_iff (i : RecipeCreateInput) :
    validationErrors i = [] ↔
      badLen 3 i.name = false ∧ badLen 10 i.ingredients = false ∧
      badLen 20 i.instructions = false ∧ badPos i.prep_time = false ∧
      badPos i.cook_time = false ∧ badPos i.servings = false := by
  simp [validationErrors, List.append_eq_nil, ite_singleton_eq_nil, and_assoc]

/-- C8: create validates the stripped text lengths in field order (name at
least 3 characters, ingredients at least 10, instructions at least 20), then
each present numeric field positive; success is exactly all rules passing;
on failure create stores nothing and reports the collected error list, whose
head identifies the first failing field in declaration order; and each error
names its field. -/
theorem c8_validation_order (i : RecipeCreateInput) (db : Store) (now : Nat) :
    (validationErrors i = [] ↔
      3 ≤ (pyStrip i.name).length ∧ 10 ≤ (pyStrip i.ingredients).length ∧
      20 ≤ (pyStrip i.instructions).length ∧
      (∀ v, i.prep_time = some v → 0 < v) ∧
      (∀ v, i.cook_time = some v → 0 < v) ∧
      (∀ v, i.servings = some v → 0 < v)) ∧
    (validationErrors i ≠ [] →
      (create_recipe db i now).1 = .error (validationErrors i) ∧
      (create_recipe db i now).2 = db) ∧
    ((pyStrip i.name).length < 3 →
      (validationErrors i).head? = some FieldError.nameTooShort) ∧
    (3 ≤ (pyStrip i.name).length → (pyStrip i.ingredients).length < 10 →
      (validationErrors i).head? = some FieldError.ingredientsTooShort) ∧
    (3 ≤ (pyStrip i.name).length → 10 ≤ (pyStrip i.ingredients).length →
      (pyStrip i.instructions).length < 20 →
      (validationErrors i).head? = some FieldError.instructionsTooShort) ∧
    (3 ≤ (pyStrip i.name).length → 10 ≤ (pyStrip i.ingredients).length →
      20 ≤ (pyStrip i.instructions).length →
      ∀ v, i.prep_time = some v → v ≤ 0 →
        (validationErrors i).head? = some FieldError.prepTimeNotPositive) ∧
    (3 ≤ (pyStrip i.name).length → 10 ≤ (pyStrip i.ingredients).length →
      20 ≤ (pyStrip i.instructions).length →
      (∀ v, i.prep_time = some v → 0 < v) →
      ∀ v, i.cook_time = some v → v ≤ 0 →
        (validationErrors i).head? = some FieldError.cookTimeNotPositive) ∧
    (3 ≤ (pyStrip i.name).length → 10 ≤ (pyStrip i.ingredients).length →
      20 ≤ (pyStrip i.instructions).length →
      (∀ v, i.prep_time = some v → 0 < v) →
      (∀ v, i.cook_time = some v → 0 < v) →
      ∀ v, i.servings = some v → v ≤ 0 →
        (validationErrors i).head? = some FieldError.servingsNotPositive) ∧
    (FieldError.field FieldError.nameTooShort = "name" ∧
      FieldError.field FieldError.ingredientsTooShort = "ingredients" ∧
      FieldError.field FieldError.instructionsTooShort = "instructions" ∧
      FieldError.field FieldError.prepTimeNotPositive = "prep_time" ∧
      FieldError.field FieldError.cookTimeNotPositive = "cook_time" ∧
      FieldError.field FieldError.servingsNotPositive = "servings") := by
  refine ⟨?_, ?_, ?_, ?_, ?_, ?_, ?_, ?_, rfl, rfl, rfl, rfl, rfl, rfl⟩
  · rw [validationErrors_nil_iff]
    simp only [badLen_false_iff, badPos_false_iff]
  · intro hne
    cases hv : validationErrors i with
    | nil => exact absurd hv hne
    | cons e es =>
      constructor
      · simp [create_recipe, hv]
      · simp [create_recipe, hv]
  · intro ha
    have h1 : badLen 3 i.name = true := (badLen_true_iff 3 i.name).mpr ha
    simp [validationErrors, h1]
  · intro ha hb
    have h1 : badLen 3 i.name = false := (badLen_false_iff 3 i.name).mpr ha
    have h2 : badLen 10 i.ingredients = true := (badLen_true_iff 10 i.ingredients).mpr hb
    simp [validationErrors, h1, h2]
  · intro ha hb hc
    have h1 : badLen 3 i.name = false := (badLen_false_iff 3 i.name).mpr ha
    have h2 : badLen 10 i.ingredients = false := (badLen_false_iff 10 i.ingredients).mpr hb
    have h3 : badLen 20 i.instructions = true := (badLen_true_iff 20 i.instructions).mpr hc
    simp [validationErrors, h1, h2, h3]
  · intro ha hb hc v hv hvle
    have h1 : badLen 3 i.name = false := (badLen_false_iff 3 i.name).mpr ha
    have h2 : badLen 10 i.ingredients = false := (badLen_false_iff 10 i.ingredients).mpr hb
    have h3 : badLen 20 i.instructions = false := (badLen_false_iff 20 i.instructions).mpr hc
    have h4 : badPos i.prep_time = true := by
      rw [hv]
      simpa [badPos] using hvle
    simp [validationErrors, h1, h2, h3, h4]
  · intro ha hb hc hp v hv hvle
    have h1 : badLen 3 i.name = false := (badLen_false_iff 3 i.name).mpr ha
    have h2 : badLen 10 i.ingredients = false := (badLen_false_iff 10 i.ingredients).mpr hb
    have h3 : badLen 20 i.instructions = false := (badLen_false_iff 20 i.instructions).mpr hc
    have h4 : badPos i.prep_time = false := (badPos_false_iff i.prep_time).mpr hp
    have h5 : badPos i.cook_time = true := by
      rw [hv]
      simpa [badPos] using hvle
    simp [validationErrors, h1, h2, h3, h4, h5]
  · intro ha hb hc hp hk v hv hvle
    have h1 : badLen 3 i.name = false := (badLen_false_iff 3 i.name).mpr ha
    have h2 : badLen 10 i.ingredients = false := (badLen_false_iff 10 i.ingredients).mpr hb
    have h3 : badLen 20 i.instructions = false := (badLen_false_iff 20 i.instructions).mpr hc
    have h4 : badPos i.prep_time = false := (badPos_false_iff i.prep_time).mpr hp
    have h5 : badPos i.cook_time = false := (badPos_false_iff i.cook_time).mpr hk
    have h6 : badPos i.servings = true := by
      rw [hv]
      simpa [badPos] using hvle
    simp [validationErrors, h1, h2, h3, h4, h5, h6]

/-- The invalid payload of the test suite (name "AB", short ingredients and
instructions). -/
def badNameInput : RecipeCreateInput :=
  { name := "AB", ingredients := "Pocos", instructions := "Muy corto" }

/-- C8 witness: on the invalid sample payload, the first reported error is
the name rule and nothing is stored. -/
theorem c8_validation_order_witness :
    (validationErrors badNameInput).head? = some FieldError.nameTooShort ∧
    (create_recipe emptyStore badNameInput 0).2 = emptyStore := by
  constructor
  · exact (c8_validation_order badNameInput emptyStore 0).2.2.1 (by decide)
  · exact ((c8_validation_order badNameInput emptyStore 0).2.1 (by decide)).2

/-- A non-deleted copy of the sample record whose category is the empty
string: a non-null value that Python treats as falsy. -/
def emptyCategorySample : RecipeRecord := { sampleRecipe with category := some "" }

/-- A store holding just that record. -/
def emptyCategoryDb : Store := { recipes := [emptyCategorySample], nextId := 2 }

/-- C9 counterexample: one non-deleted record carries the empty string as its
category — a distinct non-null value — yet stats omits it entirely from the
category map, because the source guard skips Python-falsy categories. -/
theorem c9_stats_counterexample :
    emptyCategorySample.category = some "" ∧
    emptyCategorySample.is_deleted = "false" ∧
    get_stats emptyCategoryDb =
      { total_recipes := 1, total_deleted := 0, categories := [] } := by
  refine ⟨rfl, rfl, by decide⟩

/-- C9 amended: total_recipes counts the non-deleted rows, total_deleted the
deleted rows, and the category map contains the pair (s, n) exactly when s is
a non-null, non-empty category borne by some non-deleted row and n counts the
non-deleted rows whose category equals s by exact string equality. -/
theorem c9_stats_semantics (db : Store) (s : String) (n : Nat) :
    (get_stats db).total_recipes = (activeRecipes db).length ∧
    (get_stats db).total_deleted =
      (db.recipes.filter (fun r => r.is_deleted == "true")).length ∧
    ((s, n) ∈ (get_stats db).categories ↔
      s ≠ "" ∧ some s ∈ (activeRecipes db).map (fun r => r.category) ∧
      n = ((activeRecipes db).filter (fun r => r.category == some s)).length) := by
  refine ⟨rfl, rfl, ?_⟩
  show (s, n) ∈ (distinctVals ((activeRecipes db).map (fun r => r.category))).filterMap _ ↔ _
  rw [List.mem_filterMap]
  constructor
  · rintro ⟨c, hc, hfc⟩
    cases c with
    | none => simp at hfc
    | some t =>
      simp only at hfc
      by_cases ht : (t == "") = true
      · rw [if_pos ht] at hfc
        simp at hfc
      · rw [if_neg ht] at hfc
        simp only [Option.some.injEq, Prod.mk.injEq] at hfc
        obtain ⟨hts, hn⟩ := hfc
        have hmem := (mem_distinctVals (some t) _).mp hc
        refine ⟨?_, ?_, ?_⟩
        · rw [← hts]
          simpa using ht
        · rw [← hts]
          exact hmem
        · rw [← hn, ← hts]
          rfl
  · rintro ⟨hne, hmem, hn⟩
    refine ⟨some s, (mem_distinctVals (some s) _).mpr hmem, ?_⟩
    simp only
    rw [if_neg (by simpa using hne)]
    rw [hn]
    rfl
